import Mathlib

/-!
Verification of the graph construction and relationship-discovery engine of the
ha_visualiser Home Assistant integration
(src/custom_components/ha_visualiser/graph_service.py and websocket_api.py).

The Python code is shallowly embedded below.  Python strings are Lean `String`s;
the Python string primitives used by the source (`str.startswith`, `str.replace`,
`str.lower`, the `in` substring test, `str.__contains__` of a character) are
modelled by executable character-list functions so that concrete runs reduce in
the kernel.  Python dicts keyed by strings are association lists, Python sets are
lists with membership-guarded insertion, and `None`-returning lookups are
`Option`.  Exceptions (`ValueError` raised on an unresolvable focus node) are
`Except String`.  The Home Assistant registries (entity states, entity registry,
device registry, area registry) are a read-only `Registry` record, mirroring the
read-only query surface the source uses.  Relationship discovery
(`_find_related_entities`) mixes registry queries with floating-point haversine
geometry; the graph-traversal functions receive it as an oracle parameter
`findRelated : String → List (String × String)` returning the same
(neighbor id, relationship tag) pairs the source produces, so every theorem about
the traversal quantifies over all possible discovery outcomes.
Recursive traversal is embedded with an explicit fuel argument that the API
entry points instantiate with `maxDepth.toNat + 1`; since every recursive call
decrements both the fuel and the depth, and the traversal stops as soon as
`depth < 0`, this fuel is never exhausted and the embedding computes exactly the
source recursion.
-/

/-- Model of Python `pre in s`-style `str.startswith`: the pattern is a prefix of
the character sequence. -/
def chStartsWith (s pre : String) : Bool := pre.data.isPrefixOf s.data

/-- Worker for `chReplace`: replaces non-overlapping occurrences left to right.
The fuel starts at the length of the subject and every step consumes at least one
character whenever the pattern is nonempty (the source only replaces the nonempty
patterns "device:", "area:" and "_"), so the fuel never runs out. -/
def replaceAux (pat rep : List Char) : Nat → List Char → List Char
  | _, [] => []
  | 0, l => l
  | Nat.succ fuel, c :: rest =>
    if pat.isPrefixOf (c :: rest) then
      rep ++ replaceAux pat rep fuel ((c :: rest).drop pat.length)
    else c :: replaceAux pat rep fuel rest

/-- Model of Python `s.replace(pat, rep)` for nonempty `pat`. -/
def chReplace (s pat rep : String) : String := ⟨replaceAux pat.data rep.data s.data.length s.data⟩

/-- ASCII lower-casing of one character, as Python `str.lower` does on the
ASCII-range characters relevant here. -/
def lowerChar (c : Char) : Char := if 'A' ≤ c ∧ c ≤ 'Z' then Char.ofNat (c.toNat + 32) else c

/-- Model of Python `s.lower()`. -/
def chToLower (s : String) : String := ⟨s.data.map lowerChar⟩

/-- Worker for `inStr`. -/
def containsSubChars (needle : List Char) : List Char → Bool
  | [] => needle.isEmpty
  | c :: rest => needle.isPrefixOf (c :: rest) || containsSubChars needle rest

/-- Model of the Python substring test `needle in hay`. -/
def inStr (needle hay : String) : Bool := containsSubChars needle.data hay.data

/-- graph_service.GraphNode: a node in the entity graph. -/
structure GraphNode where
  id : String
  label : String
  domain : String
  area : Option String
  device_id : Option String
  state : Option String
  deriving Repr, DecidableEq

/-- graph_service.GraphEdge: an edge in the entity graph. -/
structure GraphEdge where
  from_node : String
  to_node : String
  relationship_type : String
  label : String
  deriving Repr, DecidableEq

/-- get_node_priority nested in GraphService._create_symmetrical_edge:
priority for canonical edge ordering. -/
def getNodePriority (node_id : String) : Nat :=
  if chStartsWith node_id "area:" then 1
  else if chStartsWith node_id "device:" then 2
  else if chStartsWith node_id "zone." then 3
  else if chStartsWith node_id "automation." then 4
  else 5

/-- The list of standard containment relationship tags tested by
_create_symmetrical_edge. -/
def containmentTags : List String :=
  ["has_entity", "device_has", "area_contains", "area_contains_device",
   "device_in_area", "zone_contains", "in_zone"]

/-- GraphService._create_symmetrical_edge: canonical directed edge from two node
ids and a raw relationship tag.  Every branch of the source returns an edge; the
Option in the declared return type mirrors the `GraphEdge | None` annotation. -/
def createSymmetricalEdge (node_a node_b relationship_type : String) : Option GraphEdge :=
  if relationship_type ∈ containmentTags then
    let fromTo :=
      if getNodePriority node_a < getNodePriority node_b then (node_a, node_b)
      else (node_b, node_a)
    let label :=
      if chStartsWith fromTo.1 "area:" then "contains"
      else if chStartsWith fromTo.1 "device:" then "has entity"
      else if chStartsWith fromTo.1 "zone." then "contains"
      else "contains"
    some ⟨fromTo.1, fromTo.2, relationship_type, label⟩
  else if relationship_type = "automation_trigger" then
    let fromTo :=
      if chStartsWith node_a "automation." then (node_b, node_a) else (node_a, node_b)
    some ⟨fromTo.1, fromTo.2, relationship_type, "triggers"⟩
  else if relationship_type = "automation_action" then
    let fromTo :=
      if chStartsWith node_a "automation." then (node_a, node_b) else (node_b, node_a)
    some ⟨fromTo.1, fromTo.2, relationship_type, "controls"⟩
  else if chStartsWith relationship_type "template:" then
    some ⟨node_a, node_b, relationship_type, "uses"⟩
  else
    let fromTo :=
      if getNodePriority node_a ≤ getNodePriority node_b then (node_a, node_b)
      else (node_b, node_a)
    some ⟨fromTo.1, fromTo.2, relationship_type, chReplace relationship_type "_" " "⟩

/-- One live entity state: its state string and the friendly_name attribute when
present (the subset of the hass state object the graph service reads). -/
structure EntityState where
  state : String
  friendly_name : Option String
  deriving Repr, DecidableEq

/-- One entity registry entry (the fields the source reads).  `regId` embeds the
registry entry's internal `id` field used by UUID resolution. -/
structure EntityEntry where
  device_id : Option String
  area_id : Option String
  regId : String
  unique_id : Option String
  deriving Repr, DecidableEq

/-- One device registry entry (the fields the source reads). -/
structure DeviceEntry where
  name : Option String
  name_by_user : Option String
  area_id : Option String
  disabled_by : Option String
  deriving Repr, DecidableEq

/-- One area registry entry (the source only reads the name). -/
structure AreaEntry where
  name : String
  deriving Repr, DecidableEq

/-- The read-only Home Assistant data the graph service queries: live states,
entity registry, device registry and area registry, each an insertion-ordered
map keyed by id. -/
structure Registry where
  states : List (String × EntityState)
  entities : List (String × EntityEntry)
  devices : List (String × DeviceEntry)
  areas : List (String × AreaEntry)
  deriving Repr, DecidableEq

/-- Keyed lookup in an insertion-ordered map, i.e. a Python dict read. -/
def lookupKey {α : Type} (m : List (String × α)) (k : String) : Option α :=
  (m.find? (fun p => p.1 == k)).map (fun p => p.2)

/-- hass.states.get. -/
def statesGet (reg : Registry) (entity_id : String) : Option EntityState :=
  lookupKey reg.states entity_id

/-- device_registry.async_get. -/
def deviceGet (reg : Registry) (device_id : String) : Option DeviceEntry :=
  lookupKey reg.devices device_id

/-- area_registry.async_get_area. -/
def areaGet (reg : Registry) (area_id : String) : Option AreaEntry :=
  lookupKey reg.areas area_id

/-- entity_registry.async_get. -/
def entityGet (reg : Registry) (entity_id : String) : Option EntityEntry :=
  lookupKey reg.entities entity_id

/-- Python truthiness of an optional string (None and "" are falsy). -/
def optTruthy (o : Option String) : Bool :=
  match o with
  | none => false
  | some s => !(s == "")

/-- Python `a or b` over optional strings. -/
def pyOr (a b : Option String) : Option String := if optTruthy a then a else b

/-- Python entity_id.split(".")[0]: the characters before the first dot. -/
def domainOf (entity_id : String) : String := ⟨entity_id.data.takeWhile (fun c => c != '.')⟩

/-- GraphService._create_node: build the GraphNode for an entity, device, area
or zone id, or none when the id does not resolve against the registries. -/
def createNode (reg : Registry) (entity_id : String) : Option GraphNode :=
  if chStartsWith entity_id "device:" then
    let deviceId := chReplace entity_id "device:" ""
    match deviceGet reg deviceId with
    | none => none
    | some device =>
      let deviceName :=
        match pyOr (pyOr device.name_by_user device.name) (some "Unknown Device") with
        | some s => s
        | none => "Unknown Device"
      let areaName :=
        if optTruthy device.area_id then
          match areaGet reg (device.area_id.getD "") with
          | some area => some area.name
          | none => none
        else none
      some ⟨entity_id, deviceName, "device", areaName, some deviceId,
            some (if device.disabled_by = none then "connected" else "disabled")⟩
  else if chStartsWith entity_id "area:" then
    let areaId := chReplace entity_id "area:" ""
    match areaGet reg areaId with
    | none => none
    | some area => some ⟨entity_id, area.name, "area", some area.name, none, some "active"⟩
  else if chStartsWith entity_id "zone." then
    match statesGet reg entity_id with
    | none => none
    | some zoneState =>
      some ⟨entity_id, zoneState.friendly_name.getD entity_id, "zone", none, none,
            some zoneState.state⟩
  else
    match statesGet reg entity_id with
    | none => none
    | some state =>
      let entityEntry := entityGet reg entity_id
      let deviceId :=
        match entityEntry with
        | some ee => ee.device_id
        | none => none
      let areaName :=
        match entityEntry with
        | some ee =>
          if optTruthy ee.area_id then
            match areaGet reg (ee.area_id.getD "") with
            | some area => some area.name
            | none => none
          else if optTruthy ee.device_id then
            match deviceGet reg (ee.device_id.getD "") with
            | some device =>
              if optTruthy device.area_id then
                match areaGet reg (device.area_id.getD "") with
                | some area => some area.name
                | none => none
              else none
            | none => none
          else none
        | none => none
      some ⟨entity_id, state.friendly_name.getD entity_id, domainOf entity_id,
            areaName, deviceId, some state.state⟩

/-- The focus validation chain shared verbatim by get_entity_neighborhood and
get_filtered_neighborhood: returns the ValueError message when the focus node
does not resolve to a known device, area, zone or entity, and none when it
resolves. -/
def validateFocus (reg : Registry) (entity_id : String) : Option String :=
  if chStartsWith entity_id "device:" then
    let deviceId := chReplace entity_id "device:" ""
    match deviceGet reg deviceId with
    | none => some ("Device " ++ deviceId ++ " not found")
    | some _ => none
  else if chStartsWith entity_id "area:" then
    let areaId := chReplace entity_id "area:" ""
    match areaGet reg areaId with
    | none => some ("Area " ++ areaId ++ " not found")
    | some _ => none
  else if chStartsWith entity_id "zone." then
    match statesGet reg entity_id with
    | none => some ("Zone " ++ entity_id ++ " not found")
    | some _ => none
  else if (reg.states.map (fun p => p.1)).contains entity_id then none
  else some ("Entity " ++ entity_id ++ " not found")

/-- The lowercase hexadecimal digits. -/
def hexDigits : List Char := "0123456789abcdef".data

/-- The source's UUID heuristic: a 32-character string whose lower-casing
consists of hexadecimal digits. -/
def isUuidPattern (s : String) : Bool :=
  s.length == 32 && (chToLower s).data.all (fun c => hexDigits.contains c)

/-- GraphService._resolve_entity_uuid: resolve an entity UUID against the entity
registry's internal id (or unique_id), pass dotted ids through unchanged, and
return none otherwise.  Note the source also returns none for a UUID-shaped
string that matches no registry entry. -/
def resolveEntityUuid (reg : Registry) (uuidOrEntityId : String) : Option String :=
  if isUuidPattern uuidOrEntityId then
    match reg.entities.find? (fun p =>
        p.2.regId == uuidOrEntityId || p.2.unique_id == some uuidOrEntityId) with
    | some p => some p.1
    | none => none
  else if inStr "." uuidOrEntityId then some uuidOrEntityId
  else none

/-- GraphService._get_entities_for_device (the registry reverse index; the
source's try/except can only return the same lookups or an empty set). -/
def entitiesForDevice (reg : Registry) (device_id : String) : List String :=
  (reg.entities.filter (fun p => p.2.device_id == some device_id)).map (fun p => p.1)

/-- GraphService._get_entities_for_area. -/
def entitiesForArea (reg : Registry) (area_id : String) : List String :=
  (reg.entities.filter (fun p => p.2.area_id == some area_id)).map (fun p => p.1)

/-- A Python value inside an automation configuration block: a string, another
scalar, a sequence, or a string-keyed mapping. -/
inductive CVal where
  | str : String → CVal
  | num : Int → CVal
  | list : List CVal → CVal
  | dict : List (String × CVal) → CVal

/-- Python truthiness of a configuration value. -/
def cvalTruthy : CVal → Bool
  | .str s => !(s == "")
  | .num n => !(n == 0)
  | .list l => !l.isEmpty
  | .dict d => !d.isEmpty

/-- The string carried by a configuration value (registry lookups against a
non-string id simply match nothing, as they would in the source). -/
def cvalAsStr : CVal → String
  | .str s => s
  | _ => ""

/-- Python dict.get on a configuration mapping. -/
def dictGet (d : List (String × CVal)) (k : String) : Option CVal :=
  (d.find? (fun p => p.1 == k)).map (fun p => p.2)

/-- Python set.add: membership-guarded insertion. -/
def setAdd (s : List String) (x : String) : List String :=
  if s.contains x then s else s ++ [x]

/-- Python set.update. -/
def setUnion (s : List String) (xs : List String) : List String := xs.foldl setAdd s

/-- The source's repeated resolve-or-keep pattern for one entity_id string:
resolved = _resolve_entity_uuid(eid); entities.add(resolved) if resolved else
entities.add(eid). -/
def entityIdStrAdd (reg : Registry) (acc : List String) (eid : String) : List String :=
  match resolveEntityUuid reg eid with
  | some resolved => setAdd acc resolved
  | none => setAdd acc eid

/-- The direct entity_id block of _extract_entities_from_config (string or list
of strings, each with UUID resolution). -/
def entityIdBranch (reg : Registry) (cfg : List (String × CVal))
    (entities : List String) : List String :=
  match dictGet cfg "entity_id" with
  | some (CVal.str eid) => entityIdStrAdd reg entities eid
  | some (CVal.list l) =>
    l.foldl (fun acc v =>
      match v with
      | CVal.str eid => entityIdStrAdd reg acc eid
      | _ => acc) entities
  | _ => entities

/-- The raw entity_id extraction the source applies to the data and target
sub-mappings: strings are added as-is, with no UUID resolution. -/
def rawEntityIdAdd (sub : List (String × CVal)) (entities : List String) : List String :=
  match dictGet sub "entity_id" with
  | some (CVal.str s) => setAdd entities s
  | some (CVal.list l) =>
    l.foldl (fun acc v =>
      match v with
      | CVal.str s => setAdd acc s
      | _ => acc) entities
  | _ => entities

/-- The service-data block: config.get("data", {}) then its entity_id. -/
def dataBranch (cfg : List (String × CVal)) (entities : List String) : List String :=
  match dictGet cfg "data" with
  | some (CVal.dict serviceData) => rawEntityIdAdd serviceData entities
  | _ => entities

/-- The target block: config.get("target", {}) then its entity_id. -/
def targetBranch (cfg : List (String × CVal)) (entities : List String) : List String :=
  match dictGet cfg "target" with
  | some (CVal.dict target) => rawEntityIdAdd target entities
  | _ => entities

/-- The device_id block: prefer the specific resolved entity, otherwise fall
back to all entities on the device. -/
def deviceBranch (reg : Registry) (cfg : List (String × CVal))
    (entities : List String) : List String :=
  match dictGet cfg "device_id" with
  | some dv =>
    if cvalTruthy dv then
      match dictGet cfg "entity_id" with
      | some sv =>
        if cvalTruthy sv then
          match (match sv with
                 | CVal.str s => resolveEntityUuid reg s
                 | _ => none) with
          | some resolved => setAdd entities resolved
          | none => setUnion entities (entitiesForDevice reg (cvalAsStr dv))
        else setUnion entities (entitiesForDevice reg (cvalAsStr dv))
      | none => setUnion entities (entitiesForDevice reg (cvalAsStr dv))
    else entities
  | none => entities

/-- The area_id block: union in all entities of the area. -/
def areaBranch (reg : Registry) (cfg : List (String × CVal))
    (entities : List String) : List String :=
  match dictGet cfg "area_id" with
  | some av =>
    if cvalTruthy av then setUnion entities (entitiesForArea reg (cvalAsStr av))
    else entities
  | none => entities

/-- The per-config body of _extract_entities_from_config's loop: the five
keyed blocks in source order, then the recursive walk over all mapping values
(`recurse` stands for the recursive call at the remaining fuel). -/
def extractConfigStep (reg : Registry) (recurse : List CVal → List String)
    (entities : List String) : CVal → List String
  | CVal.dict cfg =>
    let e1 := entityIdBranch reg cfg entities
    let e2 := dataBranch cfg e1
    let e3 := targetBranch cfg e2
    let e4 := deviceBranch reg cfg e3
    let e5 := areaBranch reg cfg e4
    cfg.foldl (fun acc p =>
      match p.2 with
      | CVal.list l => setUnion acc (recurse l)
      | CVal.dict d => setUnion acc (recurse [CVal.dict d])
      | _ => acc) e5
  | _ => entities

/-- GraphService._extract_entities_from_config: the set of entity ids referenced
by a list of automation trigger/action blocks, including indirect references via
device_id/area_id and UUID resolution, recursing through nested sequences and
mappings.  The fuel bounds the nesting depth walked (the source recursion is
bounded by the structural depth of the configuration; claims below hold for
every sufficient fuel).  Set elements of non-string type added by the source's
untyped set.update calls are outside the string-set model and are skipped. -/
def extractEntitiesFromConfig (reg : Registry) : Nat → List CVal → List String
  | 0, _ => []
  | Nat.succ fuel, configList =>
    configList.foldl (extractConfigStep reg (extractEntitiesFromConfig reg fuel)) []

/-- The empty Home Assistant data set. -/
def emptyRegistry : Registry := ⟨[], [], [], []⟩

/-- Traversal state threaded through the recursive expansion: the node map, the
edge list, the visited set and the edge-key set, mirroring the four mutable
collections of the source. -/
structure TravState where
  nodes : List (String × GraphNode)
  edges : List GraphEdge
  visited : List String
  edgeSet : List String
  deriving Repr, DecidableEq

/-- The initial (empty) traversal state of each query. -/
def emptyTravState : TravState := ⟨[], [], [], []⟩

/-- The unique edge identifier used for deduplication:
f"{edge.from_node}:{edge.to_node}:{edge.relationship_type}". -/
def edgeKey (e : GraphEdge) : String :=
  e.from_node ++ ":" ++ e.to_node ++ ":" ++ e.relationship_type

/-- Python dict assignment nodes[entity_id] = node: replace in place or append. -/
def setNode (m : List (String × GraphNode)) (k : String) (v : GraphNode) :
    List (String × GraphNode) :=
  if m.any (fun p => p.1 == k) then m.map (fun p => if p.1 == k then (k, v) else p)
  else m ++ [(k, v)]

/-- GraphService._add_entity_and_neighbors: recursively add an entity and its
neighbors to the graph.  `findRelated` is the relationship-discovery oracle
standing for self._find_related_entities; the loop over discovered neighbors is
the state fold; the fuel (always instantiated with max_depth.toNat + 1, see the
module comment) makes the depth-driven recursion structural. -/
def addEntityAndNeighbors (findRelated : String → List (String × String)) (reg : Registry) :
    Nat → String → TravState → Int → TravState
  | 0, _, st, _ => st
  | Nat.succ fuel, entity_id, st, depth =>
    if st.visited.contains entity_id || depth < 0 then st
    else
      let st := { st with visited := entity_id :: st.visited }
      match createNode reg entity_id with
      | none => st
      | some node =>
        let st := { st with nodes := setNode st.nodes entity_id node }
        if depth > 0 then
          (findRelated entity_id).foldl (fun acc rel =>
            if acc.visited.contains rel.1 then acc
            else
              let acc :=
                match createSymmetricalEdge entity_id rel.1 rel.2 with
                | some edge =>
                  if acc.edgeSet.contains (edgeKey edge) then acc
                  else { acc with edges := acc.edges ++ [edge],
                                  edgeSet := edgeKey edge :: acc.edgeSet }
                | none => acc
              addEntityAndNeighbors findRelated reg fuel rel.1 acc (depth - 1)) st
        else st

/-- The payload of get_entity_neighborhood. -/
structure NeighborhoodResult where
  nodes : List GraphNode
  edges : List GraphEdge
  center_node : String
  deriving Repr, DecidableEq

/-- GraphService.get_entity_neighborhood: validate the focus node (raising
ValueError when it does not resolve), then expand from it. -/
def getEntityNeighborhood (reg : Registry) (findRelated : String → List (String × String))
    (entity_id : String) (max_depth : Int) : Except String NeighborhoodResult :=
  match validateFocus reg entity_id with
  | some msg => Except.error msg
  | none =>
    let st := addEntityAndNeighbors findRelated reg (max_depth.toNat + 1) entity_id
      emptyTravState max_depth
    Except.ok ⟨st.nodes.map (fun p => p.2), st.edges, entity_id⟩

/-- Python truthiness of an optional filter list (None and [] deactivate it). -/
def filterActive (f : Option (List String)) : Bool :=
  match f with
  | none => false
  | some l => !l.isEmpty

/-- GraphService._passes_filters. -/
def passesFilters (node : GraphNode) (domain_filter area_filter : Option (List String)) : Bool :=
  if filterActive domain_filter && !((domain_filter.getD []).contains node.domain) then false
  else if filterActive area_filter && optTruthy node.area &&
      !((area_filter.getD []).contains (node.area.getD "")) then false
  else true

/-- GraphService._add_entity_and_neighbors_filtered: the filtered expansion.
It returns the updated traversal state together with the updated filtered_count
(the source mutates the shared collections and returns the count). -/
def addEntityAndNeighborsFiltered (findRelated : String → List (String × String))
    (reg : Registry) :
    Nat → String → TravState → Int → Option (List String) → Option (List String) →
      Option (List String) → Int → TravState × Int
  | 0, _, st, _, _, _, _, filtered_count => (st, filtered_count)
  | Nat.succ fuel, entity_id, st, depth, domain_filter, area_filter, relationship_filter,
      filtered_count =>
    if st.visited.contains entity_id || depth < 0 then (st, filtered_count)
    else
      let st := { st with visited := entity_id :: st.visited }
      match createNode reg entity_id with
      | some node =>
        if passesFilters node domain_filter area_filter then
          let st := { st with nodes := setNode st.nodes entity_id node }
          if depth > 0 then
            (findRelated entity_id).foldl (fun acc rel =>
              if filterActive relationship_filter &&
                  !((relationship_filter.getD []).any (fun relFilter => inStr relFilter rel.2)) then
                (acc.1, acc.2 + 1)
              else if acc.1.visited.contains rel.1 then acc
              else
                match createNode reg rel.1 with
                | some relatedNode =>
                  if passesFilters relatedNode domain_filter area_filter then
                    let st1 :=
                      match createSymmetricalEdge entity_id rel.1 rel.2 with
                      | some edge =>
                        if acc.1.edgeSet.contains (edgeKey edge) then acc.1
                        else { acc.1 with edges := acc.1.edges ++ [edge],
                                          edgeSet := edgeKey edge :: acc.1.edgeSet }
                      | none => acc.1
                    addEntityAndNeighborsFiltered findRelated reg fuel rel.1 st1 (depth - 1)
                      domain_filter area_filter relationship_filter acc.2
                  else (acc.1, acc.2 + 1)
                | none => (acc.1, acc.2 + 1)) (st, filtered_count)
          else (st, filtered_count)
        else (st, filtered_count + 1)
      | none => (st, filtered_count + 1)

/-- The payload of get_filtered_neighborhood. -/
structure FilteredNeighborhoodResult where
  nodes : List GraphNode
  edges : List GraphEdge
  center_node : String
  filtered_count : Int
  deriving Repr, DecidableEq

/-- GraphService.get_filtered_neighborhood: validate the focus node, expand with
filters, and assemble the payload.  Exactly as in the source, the integer
returned by the recursive helper is discarded and the payload reports the local
filtered_count variable, which is still 0. -/
def getFilteredNeighborhood (reg : Registry) (findRelated : String → List (String × String))
    (entity_id : String) (max_depth : Int)
    (domain_filter area_filter relationship_filter : Option (List String)) :
    Except String FilteredNeighborhoodResult :=
  match validateFocus reg entity_id with
  | some msg => Except.error msg
  | none =>
    let filtered_count : Int := 0
    let call := addEntityAndNeighborsFiltered findRelated reg (max_depth.toNat + 1) entity_id
      emptyTravState max_depth domain_filter area_filter relationship_filter filtered_count
    Except.ok ⟨call.1.nodes.map (fun p => p.2), call.1.edges, entity_id, filtered_count⟩

/-- websocket_api.const.ERR_NOT_FOUND (Home Assistant websocket error code). -/
def ERR_NOT_FOUND : String := "not_found"

/-- websocket_api.const.ERR_UNKNOWN_ERROR (Home Assistant websocket error code). -/
def ERR_UNKNOWN_ERROR : String := "unknown_error"

/-- The reply a websocket command handler sends: a result payload, or an error
carrying a code and a message. -/
inductive WsReply (α : Type) where
  | sendResult : α → WsReply α
  | sendError : String → String → WsReply α
  deriving Repr, DecidableEq

/-- websocket_api.websocket_get_neighborhood: forward the service result, and
turn a ValueError into a send_error with ERR_NOT_FOUND.  In this embedding the
service's only failure is the focus-resolution ValueError, so the generic
except branch (ERR_UNKNOWN_ERROR) is unreachable. -/
def websocketGetNeighborhood (reg : Registry) (findRelated : String → List (String × String))
    (entity_id : String) (max_depth : Int) : WsReply NeighborhoodResult :=
  match getEntityNeighborhood reg findRelated entity_id max_depth with
  | Except.ok r => WsReply.sendResult r
  | Except.error msg => WsReply.sendError ERR_NOT_FOUND msg

/-- websocket_api.websocket_get_filtered_neighborhood (same error mapping). -/
def websocketGetFilteredNeighborhood (reg : Registry)
    (findRelated : String → List (String × String)) (entity_id : String) (max_depth : Int)
    (domain_filter area_filter relationship_filter : Option (List String)) :
    WsReply FilteredNeighborhoodResult :=
  match getFilteredNeighborhood reg findRelated entity_id max_depth domain_filter area_filter
      relationship_filter with
  | Except.ok r => WsReply.sendResult r
  | Except.error msg => WsReply.sendError ERR_NOT_FOUND msg

/-- A small concrete Home Assistant data set used by concrete runs: two lights
and a sensor, the lights on device d. -/
def sampleReg : Registry :=
  ⟨[("light.a", ⟨"on", none⟩), ("sensor.b", ⟨"21", none⟩), ("light.c", ⟨"off", none⟩)],
   [("light.a", ⟨some "d", none, "e1aaaaaaaaaaaaaaaaaaaaaaaaaaaaaa", none⟩),
    ("sensor.b", ⟨none, none, "e2aaaaaaaaaaaaaaaaaaaaaaaaaaaaaa", none⟩),
    ("light.c", ⟨some "d", none, "e3aaaaaaaaaaaaaaaaaaaaaaaaaaaaaa", none⟩)],
   [("d", ⟨some "Switch", none, none, none⟩)],
   []⟩

/-- A concrete relationship-discovery oracle over sampleReg, realizing the
shapes the claims exercise: the focus light has a resolvable sensor neighbor
and a device neighbor, and the device carries a second light two hops from the
focus. -/
def sampleFindRelated : String → List (String × String) := fun id =>
  if id == "light.a" then [("sensor.b", "has_entity"), ("device:d", "has_entity")]
  else if id == "device:d" then
    [("light.a", "device_has"), ("sensor.b", "device_has"), ("light.c", "device_has")]
  else []

/-- The GraphNode the embedding builds for light.a in sampleReg. -/
def lightANode : GraphNode := ⟨"light.a", "light.a", "light", none, some "d", some "on"⟩

instance {ε α : Type} [DecidableEq ε] [DecidableEq α] : DecidableEq (Except ε α) := fun x y =>
  match x, y with
  | .ok a, .ok b =>
    if h : a = b then isTrue (by rw [h])
    else isFalse (by intro hc; injection hc; contradiction)
  | .ok _, .error _ => isFalse (fun hc => Except.noConfusion hc)
  | .error _, .ok _ => isFalse (fun hc => Except.noConfusion hc)
  | .error a, .error b =>
    if h : a = b then isTrue (by rw [h])
    else isFalse (by intro hc; injection hc; contradiction)

/-- Deduplication invariant of the traversal state: every recorded edge's key is
in the key set, and the recorded edges have pairwise distinct keys. -/
def EdgeInv (st : TravState) : Prop :=
  (∀ ed ∈ st.edges, edgeKey ed ∈ st.edgeSet) ∧
  List.Pairwise (fun e1 e2 => edgeKey e1 ≠ edgeKey e2) st.edges

/-- The graph the embedding computes for the unfiltered depth-2 query from
light.a over sampleReg. -/
def sampleUnfilteredResult : NeighborhoodResult :=
  ⟨[lightANode,
    ⟨"sensor.b", "sensor.b", "sensor", none, none, some "21"⟩,
    ⟨"device:d", "Switch", "device", none, some "d", some "connected"⟩,
    ⟨"light.c", "light.c", "light", none, some "d", some "off"⟩],
   [⟨"sensor.b", "light.a", "has_entity", "contains"⟩,
    ⟨"device:d", "light.a", "has_entity", "has entity"⟩,
    ⟨"device:d", "light.c", "device_has", "has entity"⟩],
   "light.a"⟩

/-- No colon occurs among the characters. -/
def noColonChars (l : List Char) : Bool := l.all (fun c => c != ':')

/-- Well-formed node id: an entity id (contains a dot, no colon), or a
device:/area: prefixed id whose suffix has no colon.  Every node id Home
Assistant produces has this shape; it rules out colon collisions inside the
colon-joined edge keys. -/
def wfNodeIdB (s : String) : Bool :=
  if chStartsWith s "device:" then noColonChars (s.data.drop 7)
  else if chStartsWith s "area:" then noColonChars (s.data.drop 5)
  else noColonChars s.data && s.data.contains '.'

/-- Hops within a bound: withinHops edges a b n holds when b is reachable from a
in at most n steps over the recorded edges, ignoring direction. -/
def withinHops (edges : List GraphEdge) : String → String → Nat → Bool
  | a, b, 0 => a == b
  | a, b, Nat.succ n =>
    a == b || edges.any (fun e =>
      (e.from_node == a && withinHops edges e.to_node b n) ||
      (e.to_node == a && withinHops edges e.from_node b n))

/-- Well-formedness invariant for the depth-bound argument: recorded edges have
well-formed endpoints, and every key in the dedup set is the key of some
recorded edge. -/
def StWfC6 (st : TravState) : Prop :=
  (∀ ed ∈ st.edges, wfNodeIdB ed.from_node = true ∧ wfNodeIdB ed.to_node = true) ∧
  (∀ k ∈ st.edgeSet, ∃ ed ∈ st.edges, edgeKey ed = k)

/-- C9: the edge canonicalizer is total: every pair of node ids and every
relationship tag (known or unknown) produces an edge, so the `None` branch
permitted by the declared return type is unreachable and no discovered
relationship is silently dropped at the canonicalization step. -/
theorem c9_canonicalizer_total (node_a node_b relationship_type : String) :
    (createSymmetricalEdge node_a node_b relationship_type).isSome = true := by
  unfold createSymmetricalEdge
  repeat' split
  all_goals rfl

/-- C1 fails as stated: for a template relationship tag the canonicalizer keeps
its arguments in call order, so swapping the two node arguments produces a
different edge. -/
theorem c1_counterexample :
    createSymmetricalEdge "light.a" "sensor.b" "template:x" ≠
      createSymmetricalEdge "sensor.b" "light.a" "template:x" := by
  decide

/-- C1 (amended): edge canonicalization is invariant under swapping the two node
arguments when the relationship tag is a containment-family tag or an unknown
tag and the two node ids have distinct priorities, and when the tag is
automation_trigger or automation_action and exactly one of the two node ids
starts with "automation.".  (For template:* tags, and whenever the two ids have
equal priority under a containment/unknown tag, or neither/both ids are
automations under an automation tag, the output follows argument order instead.) -/
theorem c1_edge_canonicalization_swap (a b t : String)
    (h : (getNodePriority a ≠ getNodePriority b ∧
           (t ∈ containmentTags ∨
             (t ∉ containmentTags ∧ t ≠ "automation_trigger" ∧ t ≠ "automation_action" ∧
               chStartsWith t "template:" = false))) ∨
         ((t = "automation_trigger" ∨ t = "automation_action") ∧
           chStartsWith a "automation." ≠ chStartsWith b "automation.")) :
    createSymmetricalEdge a b t = createSymmetricalEdge b a t := by
  rcases h with ⟨hne, hmem | ⟨hnmem, hnt, hna, htmpl⟩⟩ | ⟨ht | ht, hx⟩
  · rcases Nat.lt_or_ge (getNodePriority a) (getNodePriority b) with hlt | hge
    · simp [createSymmetricalEdge, hmem, hlt, Nat.not_lt_of_le (Nat.le_of_lt hlt)]
    · have hlt : getNodePriority b < getNodePriority a := Nat.lt_of_le_of_ne hge (Ne.symm hne)
      simp [createSymmetricalEdge, hmem, hlt, Nat.not_lt_of_le (Nat.le_of_lt hlt)]
  · rcases Nat.lt_or_ge (getNodePriority a) (getNodePriority b) with hlt | hge
    · have hle := Nat.le_of_lt hlt
      simp [createSymmetricalEdge, hnmem, hnt, hna, htmpl, hle,
        Nat.not_le_of_lt hlt]
    · have hlt : getNodePriority b < getNodePriority a := Nat.lt_of_le_of_ne hge (Ne.symm hne)
      simp [createSymmetricalEdge, hnmem, hnt, hna, htmpl, Nat.le_of_lt hlt,
        Nat.not_le_of_lt hlt]
  · subst ht
    have hnc : ("automation_trigger" : String) ∉ containmentTags := by decide
    cases ha : chStartsWith a "automation." <;> cases hb : chStartsWith b "automation." <;>
      simp_all [createSymmetricalEdge, hnc]
  · subst ht
    have hnc : ("automation_action" : String) ∉ containmentTags := by decide
    cases ha : chStartsWith a "automation." <;> cases hb : chStartsWith b "automation." <;>
      simp_all [createSymmetricalEdge, hnc]

/-- Witness for C1 (amended) at a concrete containment edge between an area and
an entity. -/
theorem c1_witness :
    createSymmetricalEdge "area:kitchen" "light.x" "has_entity" =
      createSymmetricalEdge "light.x" "area:kitchen" "has_entity" :=
  c1_edge_canonicalization_swap "area:kitchen" "light.x" "has_entity"
    (Or.inl ⟨by decide, Or.inl (by decide)⟩)

/-- C8 fails as stated: a containment edge whose from side is a device carries
the label "has entity", not "has". -/
theorem c8_counterexample :
    createSymmetricalEdge "device:sw1" "light.kitchen_ceiling" "has_entity" =
      some ⟨"device:sw1", "light.kitchen_ceiling", "has_entity", "has entity"⟩ ∧
    "has entity" ≠ "has" := by
  constructor
  · decide
  · decide

/-- C8 (amended): for a containment-family tag, the produced edge's label is
determined by the from side: "contains" when the from node is an area or a zone
(or a plain entity), and "has entity" when the from node is a device. -/
theorem c8_containment_labels (a b t : String) (e : GraphEdge)
    (hmem : t ∈ containmentTags) (he : createSymmetricalEdge a b t = some e) :
    e.label = (if chStartsWith e.from_node "area:" then "contains"
               else if chStartsWith e.from_node "device:" then "has entity"
               else "contains") := by
  by_cases hp : getNodePriority a < getNodePriority b
  · have h2 : e = ⟨a, b, t,
        if chStartsWith a "area:" then "contains"
        else if chStartsWith a "device:" then "has entity"
        else if chStartsWith a "zone." then "contains" else "contains"⟩ := by
      have h3 : createSymmetricalEdge a b t = some ⟨a, b, t,
          if chStartsWith a "area:" then "contains"
          else if chStartsWith a "device:" then "has entity"
          else if chStartsWith a "zone." then "contains" else "contains"⟩ := by
        simp [createSymmetricalEdge, hmem, hp]
      rw [h3] at he
      exact (Option.some.injEq _ _ ▸ he).symm
    subst h2
    by_cases h1 : chStartsWith a "area:" <;> by_cases hd : chStartsWith a "device:" <;>
      by_cases hz : chStartsWith a "zone." <;> simp [h1, hd, hz]
  · have h2 : e = ⟨b, a, t,
        if chStartsWith b "area:" then "contains"
        else if chStartsWith b "device:" then "has entity"
        else if chStartsWith b "zone." then "contains" else "contains"⟩ := by
      have h3 : createSymmetricalEdge a b t = some ⟨b, a, t,
          if chStartsWith b "area:" then "contains"
          else if chStartsWith b "device:" then "has entity"
          else if chStartsWith b "zone." then "contains" else "contains"⟩ := by
        simp [createSymmetricalEdge, hmem, hp]
      rw [h3] at he
      exact (Option.some.injEq _ _ ▸ he).symm
    subst h2
    by_cases h1 : chStartsWith b "area:" <;> by_cases hd : chStartsWith b "device:" <;>
      by_cases hz : chStartsWith b "zone." <;> simp [h1, hd, hz]

/-- Witness for C8 (amended) at the device-to-entity edge named by the claim. -/
theorem c8_witness :
    (⟨"device:sw1", "light.kitchen_ceiling", "has_entity", "has entity"⟩ : GraphEdge).label =
      (if chStartsWith ("device:sw1") "area:" then "contains"
       else if chStartsWith ("device:sw1") "device:" then "has entity"
       else "contains") :=
  c8_containment_labels "device:sw1" "light.kitchen_ceiling" "has_entity"
    ⟨"device:sw1", "light.kitchen_ceiling", "has_entity", "has entity"⟩
    (by decide) (by decide)

/-- C4 fails as stated: a bare 32-character lowercase hexadecimal string under an
entity_id key whose resolution against the (here empty) entity registry fails is
not dropped: the source adds the unresolved hex string to the output set as-is. -/
theorem c4_counterexample :
    "aaaaaaaaaaaaaaaaaaaaaaaaaaaaaaaa" ∈
      extractEntitiesFromConfig emptyRegistry 1
        [CVal.dict [("entity_id", CVal.str "aaaaaaaaaaaaaaaaaaaaaaaaaaaaaaaa")]] := by
  decide

/-- Membership after a Python dict assignment. -/
theorem mem_setNode {m : List (String × GraphNode)} {k : String} {v : GraphNode}
    {p : String × GraphNode} (hp : p ∈ setNode m k v) : p ∈ m ∨ p = (k, v) := by
  unfold setNode at hp
  split at hp
  · obtain ⟨q, hq, hpq⟩ := List.mem_map.mp hp
    by_cases hk : q.1 == k
    · right
      rw [if_pos hk] at hpq
      exact hpq.symm
    · left
      rw [if_neg hk] at hpq
      exact hpq ▸ hq
  · rcases List.mem_append.mp hp with h | h
    · exact Or.inl h
    · right
      simpa using h

/-- The edge-recording step of the filtered loop never changes the node map. -/
theorem filteredEdgeStep_nodes (entity_id rid rt : String) (st : TravState) :
    (match createSymmetricalEdge entity_id rid rt with
     | some edge =>
       if st.edgeSet.contains (edgeKey edge) then st
       else { st with edges := st.edges ++ [edge], edgeSet := edgeKey edge :: st.edgeSet }
     | none => st).nodes = st.nodes := by
  cases createSymmetricalEdge entity_id rid rt with
  | none => rfl
  | some edge =>
    simp only []
    split <;> rfl

/-- Fold induction: a property of the accumulator preserved by every step holds
for the result of List.foldl. -/
theorem foldlPreserve {α β : Type} (P : β → Prop) (op : β → α → β) (l : List α) (b : β)
    (hb : P b) (hl : ∀ x, P x → ∀ a ∈ l, P (op x a)) : P (l.foldl op b) := by
  induction l generalizing b with
  | nil => simpa using hb
  | cons hd tl ih =>
    simp only [List.foldl_cons]
    exact ih (op b hd) (hl b hb hd (by simp)) (fun x hx a ha => hl x hx a (by simp [ha]))

/-- A set.add always contains the added element. -/
theorem mem_setAdd_self (l : List String) (x : String) : x ∈ setAdd l x := by
  unfold setAdd
  split
  · rename_i h
    simpa using h
  · simp

/-- A set.add keeps existing elements. -/
theorem mem_setAdd_of_mem {l : List String} {y : String} (x : String) (h : y ∈ l) :
    y ∈ setAdd l x := by
  unfold setAdd
  split
  · exact h
  · simp [h]

/-- A set.update keeps existing elements. -/
theorem mem_setUnion_left {l : List String} {y : String} (xs : List String) (h : y ∈ l) :
    y ∈ setUnion l xs :=
  foldlPreserve (fun (a : List String) => y ∈ a) setAdd xs l h
    (fun _ ha x _ => mem_setAdd_of_mem x ha)

/-- A set.update contains the updated-in elements. -/
theorem mem_setUnion_right {l xs : List String} {y : String} (h : y ∈ xs) :
    y ∈ setUnion l xs := by
  unfold setUnion
  induction xs generalizing l with
  | nil => simp at h
  | cons x rest ih =>
    simp only [List.foldl_cons]
    rcases List.mem_cons.mp h with rfl | h2
    · exact foldlPreserve (fun (a : List String) => y ∈ a) setAdd rest (setAdd l y)
        (mem_setAdd_self l y) (fun a ha z _ => mem_setAdd_of_mem z ha)
    · exact ih h2

/-- The resolve-or-keep step keeps existing elements. -/
theorem entityIdStrAdd_mono {reg : Registry} {acc : List String} {y : String} (eid : String)
    (h : y ∈ acc) : y ∈ entityIdStrAdd reg acc eid := by
  unfold entityIdStrAdd
  cases resolveEntityUuid reg eid <;> exact mem_setAdd_of_mem _ h

/-- The resolve-or-keep step adds the resolved id on success and the raw string
on failure. -/
theorem entityIdStrAdd_adds (reg : Registry) (acc : List String) (eid : String) :
    ((resolveEntityUuid reg eid).getD eid) ∈ entityIdStrAdd reg acc eid := by
  unfold entityIdStrAdd
  cases resolveEntityUuid reg eid <;> exact mem_setAdd_self _ _

/-- The direct entity_id block keeps existing elements. -/
theorem entityIdBranch_mono {reg : Registry} {cfg : List (String × CVal)}
    {acc : List String} {y : String} (h : y ∈ acc) : y ∈ entityIdBranch reg cfg acc := by
  unfold entityIdBranch
  split
  · exact entityIdStrAdd_mono _ h
  · refine foldlPreserve (fun (a : List String) => y ∈ a) _ _ _ h ?_
    intro a ha v _
    cases v <;> first
      | exact entityIdStrAdd_mono _ ha
      | exact ha
  · exact h

/-- The raw data/target entity_id block keeps existing elements. -/
theorem rawEntityIdAdd_mono {sub : List (String × CVal)} {acc : List String} {y : String}
    (h : y ∈ acc) : y ∈ rawEntityIdAdd sub acc := by
  unfold rawEntityIdAdd
  split
  · exact mem_setAdd_of_mem _ h
  · refine foldlPreserve (fun (a : List String) => y ∈ a) _ _ _ h ?_
    intro a ha v _
    cases v <;> first
      | exact mem_setAdd_of_mem _ ha
      | exact ha
  · exact h

/-- The data block keeps existing elements. -/
theorem dataBranch_mono {cfg : List (String × CVal)} {acc : List String} {y : String}
    (h : y ∈ acc) : y ∈ dataBranch cfg acc := by
  unfold dataBranch
  split <;> first
    | exact rawEntityIdAdd_mono h
    | exact h

/-- The target block keeps existing elements. -/
theorem targetBranch_mono {cfg : List (String × CVal)} {acc : List String} {y : String}
    (h : y ∈ acc) : y ∈ targetBranch cfg acc := by
  unfold targetBranch
  split <;> first
    | exact rawEntityIdAdd_mono h
    | exact h

/-- The device block keeps existing elements. -/
theorem deviceBranch_mono {reg : Registry} {cfg : List (String × CVal)} {acc : List String}
    {y : String} (h : y ∈ acc) : y ∈ deviceBranch reg cfg acc := by
  unfold deviceBranch
  repeat' split
  all_goals first
    | exact h
    | exact mem_setAdd_of_mem _ h
    | exact mem_setUnion_left _ h

/-- The area block keeps existing elements. -/
theorem areaBranch_mono {reg : Registry} {cfg : List (String × CVal)} {acc : List String}
    {y : String} (h : y ∈ acc) : y ∈ areaBranch reg cfg acc := by
  unfold areaBranch
  repeat' split
  all_goals first
    | exact h
    | exact mem_setUnion_left _ h

/-- The per-config extraction body keeps existing elements. -/
theorem extractConfigStep_mono {reg : Registry} {recurse : List CVal → List String}
    {acc : List String} {y : String} (config : CVal) (h : y ∈ acc) :
    y ∈ extractConfigStep reg recurse acc config := by
  cases config
  case dict cfg =>
    unfold extractConfigStep
    simp only []
    refine foldlPreserve (fun (a : List String) => y ∈ a) _ _ _ ?_ ?_
    · exact areaBranch_mono (deviceBranch_mono (targetBranch_mono (dataBranch_mono
        (entityIdBranch_mono h))))
    · intro a ha p _
      cases p.2 <;> first
        | exact mem_setUnion_left _ ha
        | exact ha
  all_goals exact h

/-- A mapping with a direct entity_id string contributes its resolve-or-keep
result through the whole per-config body. -/
theorem extractConfigStep_adds {reg : Registry} {recurse : List CVal → List String}
    (acc : List String) {cfg : List (String × CVal)} {s : String}
    (h : dictGet cfg "entity_id" = some (CVal.str s)) :
    ((resolveEntityUuid reg s).getD s) ∈ extractConfigStep reg recurse acc (CVal.dict cfg) := by
  unfold extractConfigStep
  simp only []
  refine foldlPreserve (fun (a : List String) => ((resolveEntityUuid reg s).getD s) ∈ a)
    _ _ _ ?_ ?_
  · refine areaBranch_mono (deviceBranch_mono (targetBranch_mono (dataBranch_mono ?_)))
    unfold entityIdBranch
    rw [h]
    exact entityIdStrAdd_adds reg acc s
  · intro a ha p _
    cases p.2 <;> first
      | exact mem_setUnion_left _ ha
      | exact ha

/-- Folding the per-config body over a list containing a mapping with a direct
entity_id string yields its resolve-or-keep result. -/
theorem extract_foldl_adds (reg : Registry) (recurse : List CVal → List String)
    {cfg : List (String × CVal)} {s : String}
    (h : dictGet cfg "entity_id" = some (CVal.str s)) :
    ∀ (L : List CVal) (acc : List String), CVal.dict cfg ∈ L →
      ((resolveEntityUuid reg s).getD s) ∈ L.foldl (extractConfigStep reg recurse) acc := by
  intro L
  induction L with
  | nil =>
    intro acc hmem
    simp at hmem
  | cons c rest ih =>
    intro acc hmem
    rcases List.mem_cons.mp hmem with heq | h2
    · rw [← heq]
      simp only [List.foldl_cons]
      exact foldlPreserve (fun (a : List String) => ((resolveEntityUuid reg s).getD s) ∈ a)
        _ _ _ (extractConfigStep_adds acc h) (fun a ha x _ => extractConfigStep_mono x ha)
    · simp only [List.foldl_cons]
      exact ih _ h2

/-- C4 (amended): each mapping processed by the extraction walk has UUID
resolution applied to the string under its direct entity_id key: a hex string
matching the 32-character UUID pattern is looked up against the entity
registry's internal identifier (or unique_id), and the resolved
domain.object_id is added to the output on success while the hex string itself
is added as-is (not dropped) on failure; strings containing a dot pass through
unchanged.  For a mapping's direct entity_id key the resolved id is added
instead of the hex string, but for an entity_id string nested under a data or
target sub-mapping the source additionally adds the raw string without
resolution, so a successfully resolved hex string nested there appears in the
output alongside its resolved id, not instead of it. -/
theorem c4_uuid_resolution (reg : Registry) (s : String) (fuel : Nat) :
    (∀ (L : List CVal) (cfg : List (String × CVal)), CVal.dict cfg ∈ L →
      dictGet cfg "entity_id" = some (CVal.str s) →
      ((resolveEntityUuid reg s).getD s) ∈ extractEntitiesFromConfig reg (fuel + 1) L) ∧
    extractEntitiesFromConfig reg (fuel + 1) [CVal.dict [("entity_id", CVal.str s)]] =
      [(resolveEntityUuid reg s).getD s] ∧
    (∀ r : String, resolveEntityUuid reg s = some r →
      s ∈ extractEntitiesFromConfig reg (fuel + 2)
          [CVal.dict [("data", CVal.dict [("entity_id", CVal.str s)])]] ∧
      r ∈ extractEntitiesFromConfig reg (fuel + 2)
          [CVal.dict [("data", CVal.dict [("entity_id", CVal.str s)])]] ∧
      s ∈ extractEntitiesFromConfig reg (fuel + 2)
          [CVal.dict [("target", CVal.dict [("entity_id", CVal.str s)])]] ∧
      r ∈ extractEntitiesFromConfig reg (fuel + 2)
          [CVal.dict [("target", CVal.dict [("entity_id", CVal.str s)])]]) ∧
    (isUuidPattern s = false → inStr "." s = true → resolveEntityUuid reg s = some s) := by
  refine ⟨?_, ?_, ?_, ?_⟩
  · intro L cfg hmem hkey
    rw [show fuel + 1 = Nat.succ fuel from rfl]
    unfold extractEntitiesFromConfig
    exact extract_foldl_adds reg _ hkey L [] hmem
  · cases hres : resolveEntityUuid reg s <;>
      simp [extractEntitiesFromConfig, extractConfigStep, entityIdBranch, entityIdStrAdd,
        dataBranch, targetBranch, deviceBranch, areaBranch, dictGet, List.find?, hres, setAdd]
  · intro r hres
    have hdata : extractEntitiesFromConfig reg (fuel + 2)
        [CVal.dict [("data", CVal.dict [("entity_id", CVal.str s)])]] = setAdd [s] r := by
      simp [extractEntitiesFromConfig, extractConfigStep, entityIdBranch, entityIdStrAdd,
        rawEntityIdAdd, dataBranch, targetBranch, deviceBranch, areaBranch, dictGet,
        List.find?, hres, setAdd, setUnion]
    have htarget : extractEntitiesFromConfig reg (fuel + 2)
        [CVal.dict [("target", CVal.dict [("entity_id", CVal.str s)])]] = setAdd [s] r := by
      simp [extractEntitiesFromConfig, extractConfigStep, entityIdBranch, entityIdStrAdd,
        rawEntityIdAdd, dataBranch, targetBranch, deviceBranch, areaBranch, dictGet,
        List.find?, hres, setAdd, setUnion]
    rw [hdata, htarget]
    exact ⟨mem_setAdd_of_mem r (by simp), mem_setAdd_self [s] r,
      mem_setAdd_of_mem r (by simp), mem_setAdd_self [s] r⟩
  · intro h1 h2
    simp [resolveEntityUuid, h1, h2]

/-- Witness for C4 (amended) at a UUID that resolves to light.a in sampleReg,
exercising the direct-key and the data-nested cases. -/
theorem c4_witness :
    CVal.dict [("entity_id", CVal.str "e1aaaaaaaaaaaaaaaaaaaaaaaaaaaaaa")] ∈
      [CVal.dict [("entity_id", CVal.str "e1aaaaaaaaaaaaaaaaaaaaaaaaaaaaaa")]] ∧
    dictGet [("entity_id", CVal.str "e1aaaaaaaaaaaaaaaaaaaaaaaaaaaaaa")] "entity_id" =
      some (CVal.str "e1aaaaaaaaaaaaaaaaaaaaaaaaaaaaaa") ∧
    resolveEntityUuid sampleReg "e1aaaaaaaaaaaaaaaaaaaaaaaaaaaaaa" = some "light.a" ∧
    "light.a" ∈ extractEntitiesFromConfig sampleReg 1
      [CVal.dict [("entity_id", CVal.str "e1aaaaaaaaaaaaaaaaaaaaaaaaaaaaaa")]] ∧
    "e1aaaaaaaaaaaaaaaaaaaaaaaaaaaaaa" ∈ extractEntitiesFromConfig sampleReg 2
      [CVal.dict [("data",
        CVal.dict [("entity_id", CVal.str "e1aaaaaaaaaaaaaaaaaaaaaaaaaaaaaa")])]] ∧
    "light.a" ∈ extractEntitiesFromConfig sampleReg 2
      [CVal.dict [("data",
        CVal.dict [("entity_id", CVal.str "e1aaaaaaaaaaaaaaaaaaaaaaaaaaaaaa")])]] := by
  refine ⟨List.mem_singleton.mpr rfl, rfl, by decide, ?_, ?_, ?_⟩
  · have hres : resolveEntityUuid sampleReg "e1aaaaaaaaaaaaaaaaaaaaaaaaaaaaaa" =
        some "light.a" := by decide
    have h := (c4_uuid_resolution sampleReg "e1aaaaaaaaaaaaaaaaaaaaaaaaaaaaaa" 0).1
      [CVal.dict [("entity_id", CVal.str "e1aaaaaaaaaaaaaaaaaaaaaaaaaaaaaa")]]
      [("entity_id", CVal.str "e1aaaaaaaaaaaaaaaaaaaaaaaaaaaaaa")]
      (List.mem_singleton.mpr rfl) rfl
    rw [hres] at h
    simpa using h
  · exact ((c4_uuid_resolution sampleReg "e1aaaaaaaaaaaaaaaaaaaaaaaaaaaaaa" 0).2.2.1
      "light.a" (by decide)).1
  · exact ((c4_uuid_resolution sampleReg "e1aaaaaaaaaaaaaaaaaaaaaaaaaaaaaa" 0).2.2.1
      "light.a" (by decide)).2.1

/-- Every node recorded by the filtered expansion passes the active filters:
the recursion is entered only for neighbors that resolve and pass, and the
focus records itself only when it passes. -/
theorem filteredNodesPass (fr : String → List (String × String)) (reg : Registry)
    (dF aF rF : Option (List String)) :
    ∀ (fuel : Nat) (e : String) (st : TravState) (depth : Int) (fc : Int),
      (∀ p ∈ st.nodes, passesFilters p.2 dF aF = true) →
      ∀ p ∈ (addEntityAndNeighborsFiltered fr reg fuel e st depth dF aF rF fc).1.nodes,
        passesFilters p.2 dF aF = true := by
  intro fuel
  induction fuel with
  | zero =>
    intro e st depth fc hst
    simpa [addEntityAndNeighborsFiltered] using hst
  | succ fuel ih =>
    intro e st depth fc hst
    rw [show fuel + 1 = Nat.succ fuel from rfl]
    unfold addEntityAndNeighborsFiltered
    split
    · exact hst
    · cases hcn : createNode reg e with
      | none => simpa using hst
      | some node =>
        simp only []
        by_cases hpf : passesFilters node dF aF
        · rw [if_pos hpf]
          have hst2 : ∀ p ∈ setNode st.nodes e node, passesFilters p.2 dF aF = true := by
            intro p hp
            rcases mem_setNode hp with h | h
            · exact hst p h
            · rw [h]
              exact hpf
          split
          · refine foldlPreserve
              (fun (x : TravState × Int) => ∀ p ∈ x.1.nodes, passesFilters p.2 dF aF = true)
              _ _ _ hst2 ?_
            intro acc hacc rel _
            split
            · exact hacc
            · split
              · exact hacc
              · cases hrn : createNode reg rel.1 with
                | none => exact hacc
                | some relatedNode =>
                  simp only []
                  split
                  · refine ih rel.1 _ (depth - 1) acc.2 ?_
                    intro p hp
                    rw [filteredEdgeStep_nodes e rel.1 rel.2 acc.1] at hp
                    exact hacc p hp
                  · exact hacc
          · exact hst2
        · rw [if_neg hpf]
          exact hst

/-- C2 fails on the code: get_filtered_neighborhood discards the count returned
by the recursive helper and reports the stale local variable, so the returned
filtered_count is always 0.  In the claim's scenario (domain_filter=["light"],
focus light with a resolvable sensor neighbor) the sensor neighbor is indeed
absent from the nodes and no edge to it is returned, but the reported
filtered_count is 0 even though the helper rejected two candidates. -/
theorem c2_filtered_count_always_zero :
    (∀ (reg : Registry) (fr : String → List (String × String)) (entity_id : String)
        (max_depth : Int) (dF aF rF : Option (List String)) (r : FilteredNeighborhoodResult),
        getFilteredNeighborhood reg fr entity_id max_depth dF aF rF = Except.ok r →
        r.filtered_count = 0) ∧
    getFilteredNeighborhood sampleReg sampleFindRelated "light.a" 2 (some ["light"]) none none =
      Except.ok ⟨[lightANode], [], "light.a", 0⟩ ∧
    (addEntityAndNeighborsFiltered sampleFindRelated sampleReg 3 "light.a" emptyTravState 2
        (some ["light"]) none none 0).2 = 2 := by
  refine ⟨?_, by decide, by decide⟩
  intro reg fr e d dF aF rF r h
  unfold getFilteredNeighborhood at h
  cases hv : validateFocus reg e with
  | some msg =>
    rw [hv] at h
    simp at h
  | none =>
    rw [hv] at h
    simp only [] at h
    injection h with h2
    rw [← h2]

/-- Witness for C2 at the scenario input: the reported filtered_count of the
concrete successful query is 0. -/
theorem c2_witness :
    getFilteredNeighborhood sampleReg sampleFindRelated "light.a" 2 (some ["light"]) none none =
      Except.ok ⟨[lightANode], [], "light.a", 0⟩ ∧
    (⟨[lightANode], [], "light.a", 0⟩ : FilteredNeighborhoodResult).filtered_count = 0 :=
  ⟨by decide,
   c2_filtered_count_always_zero.1 sampleReg sampleFindRelated "light.a" 2 (some ["light"])
     none none ⟨[lightANode], [], "light.a", 0⟩ (by decide)⟩

/-- C3 fails as stated: in a concrete run with domain_filter=["light"], the
focus light.a's neighbor device:d fails the domain filter; its child light.c
passes the filters and is two hops from the focus (the unfiltered query reaches
it), but the filtered traversal does not recurse into the filtered intermediate,
so light.c is absent from the filtered result. -/
theorem c3_counterexample :
    getFilteredNeighborhood sampleReg sampleFindRelated "light.a" 2 (some ["light"]) none none =
      Except.ok ⟨[lightANode], [], "light.a", 0⟩ ∧
    ("light.c", "device_has") ∈ sampleFindRelated "device:d" ∧
    (createNode sampleReg "light.c").map
      (fun (n : GraphNode) => passesFilters n (some ["light"]) none) = some true ∧
    "light.c" ∈ (match getEntityNeighborhood sampleReg sampleFindRelated "light.a" 2 with
                 | Except.ok r => r.nodes.map (fun (n : GraphNode) => n.id)
                 | Except.error _ => []) := by
  refine ⟨by decide, by decide, by decide, by decide⟩

/-- C3 (amended): the filtered traversal recurses into a discovered neighbor
only if that neighbor resolves and passes the domain/area filters; a neighbor
that fails them only increments the filtered count and its subtree is not
explored, so every node of the returned graph passes the active filters and a
node reachable only through a filtered intermediate is absent. -/
theorem c3_filtered_recursion_gated (reg : Registry)
    (fr : String → List (String × String)) (entity_id : String) (max_depth : Int)
    (dF aF rF : Option (List String)) (r : FilteredNeighborhoodResult)
    (h : getFilteredNeighborhood reg fr entity_id max_depth dF aF rF = Except.ok r) :
    ∀ n ∈ r.nodes, passesFilters n dF aF = true := by
  unfold getFilteredNeighborhood at h
  cases hv : validateFocus reg entity_id with
  | some msg =>
    rw [hv] at h
    simp at h
  | none =>
    rw [hv] at h
    simp only [] at h
    injection h with h2
    rw [← h2]
    intro n hn
    obtain ⟨p, hp, rfl⟩ := List.mem_map.mp hn
    exact filteredNodesPass fr reg dF aF rF (max_depth.toNat + 1) entity_id emptyTravState
      max_depth 0 (by simp [emptyTravState]) p hp

/-- Witness for C3 (amended): in the concrete filtered run every returned node
passes the filters. -/
theorem c3_witness :
    getFilteredNeighborhood sampleReg sampleFindRelated "light.a" 2 (some ["light"]) none none =
      Except.ok ⟨[lightANode], [], "light.a", 0⟩ ∧
    passesFilters lightANode (some ["light"]) none = true :=
  ⟨by decide,
   c3_filtered_recursion_gated sampleReg sampleFindRelated "light.a" 2 (some ["light"]) none
     none ⟨[lightANode], [], "light.a", 0⟩ (by decide) lightANode (by decide)⟩

/-- C10: when the focus node resolves but fails the active domain or area
filter, get_filtered_neighborhood still succeeds and returns an empty nodes
list and an empty edges list (and no neighbor is expanded or recorded). -/
theorem c10_filtered_focus_empty (reg : Registry)
    (fr : String → List (String × String)) (entity_id : String) (max_depth : Int)
    (dF aF rF : Option (List String))
    (hval : validateFocus reg entity_id = none) (node : GraphNode)
    (hnode : createNode reg entity_id = some node)
    (hfail : passesFilters node dF aF = false) :
    getFilteredNeighborhood reg fr entity_id max_depth dF aF rF =
      Except.ok ⟨[], [], entity_id, 0⟩ := by
  unfold getFilteredNeighborhood
  rw [hval]
  simp only []
  rw [show max_depth.toNat + 1 = Nat.succ max_depth.toNat from rfl]
  unfold addEntityAndNeighborsFiltered
  by_cases hd : max_depth < 0
  · simp [emptyTravState, hd]
  · simp [emptyTravState, hd, hnode, hfail]

/-- Witness for C10: a sensor focus with domain_filter=["light"] yields a
successful empty graph. -/
theorem c10_witness :
    validateFocus sampleReg "sensor.b" = none ∧
    createNode sampleReg "sensor.b" =
      some ⟨"sensor.b", "sensor.b", "sensor", none, none, some "21"⟩ ∧
    passesFilters ⟨"sensor.b", "sensor.b", "sensor", none, none, some "21"⟩
      (some ["light"]) none = false ∧
    getFilteredNeighborhood sampleReg sampleFindRelated "sensor.b" 2 (some ["light"]) none none =
      Except.ok ⟨[], [], "sensor.b", 0⟩ :=
  ⟨by decide, by decide, by decide,
   c10_filtered_focus_empty sampleReg sampleFindRelated "sensor.b" 2 (some ["light"]) none none
     (by decide) ⟨"sensor.b", "sensor.b", "sensor", none, none, some "21"⟩ (by decide)
     (by decide)⟩

/-- C5: when the focus node does not resolve to any known device, area, zone or
entity, both neighborhood operations fail with the focus-resolution ValueError
before any traversal begins (no partial graph is returned), and the websocket
layer surfaces it as the not-found error code, which is distinct from the
generic error code. -/
theorem c5_focus_not_found (reg : Registry) (fr : String → List (String × String))
    (entity_id : String) (max_depth : Int) (dF aF rF : Option (List String)) (msg : String)
    (h : validateFocus reg entity_id = some msg) :
    getEntityNeighborhood reg fr entity_id max_depth = Except.error msg ∧
    websocketGetNeighborhood reg fr entity_id max_depth =
      WsReply.sendError ERR_NOT_FOUND msg ∧
    getFilteredNeighborhood reg fr entity_id max_depth dF aF rF = Except.error msg ∧
    websocketGetFilteredNeighborhood reg fr entity_id max_depth dF aF rF =
      WsReply.sendError ERR_NOT_FOUND msg ∧
    ERR_NOT_FOUND ≠ ERR_UNKNOWN_ERROR := by
  have h1 : getEntityNeighborhood reg fr entity_id max_depth = Except.error msg := by
    unfold getEntityNeighborhood
    rw [h]
  have h2 : getFilteredNeighborhood reg fr entity_id max_depth dF aF rF = Except.error msg := by
    unfold getFilteredNeighborhood
    rw [h]
  refine ⟨h1, ?_, h2, ?_, by decide⟩
  · unfold websocketGetNeighborhood
    rw [h1]
  · unfold websocketGetFilteredNeighborhood
    rw [h2]

/-- Witness for C5 at the spec's scenario input "nonexistent.entity" against the
empty data set. -/
theorem c5_witness :
    validateFocus emptyRegistry "nonexistent.entity" =
      some "Entity nonexistent.entity not found" ∧
    getEntityNeighborhood emptyRegistry (fun _ => []) "nonexistent.entity" 2 =
      Except.error "Entity nonexistent.entity not found" ∧
    websocketGetNeighborhood emptyRegistry (fun _ => []) "nonexistent.entity" 2 =
      WsReply.sendError ERR_NOT_FOUND "Entity nonexistent.entity not found" :=
  ⟨by decide,
   (c5_focus_not_found emptyRegistry (fun _ => []) "nonexistent.entity" 2 none none none
     "Entity nonexistent.entity not found" (by decide)).1,
   (c5_focus_not_found emptyRegistry (fun _ => []) "nonexistent.entity" 2 none none none
     "Entity nonexistent.entity not found" (by decide)).2.1⟩

/-- The edge-recording step preserves the deduplication invariant. -/
theorem edgeStepInv (entity_id rid rt : String) (st : TravState) (h : EdgeInv st) :
    EdgeInv (match createSymmetricalEdge entity_id rid rt with
     | some edge =>
       if st.edgeSet.contains (edgeKey edge) then st
       else { st with edges := st.edges ++ [edge], edgeSet := edgeKey edge :: st.edgeSet }
     | none => st) := by
  cases createSymmetricalEdge entity_id rid rt with
  | none => exact h
  | some edge =>
    simp only []
    split
    · exact h
    · rename_i hnc
      have hnotmem : edgeKey edge ∉ st.edgeSet := fun hmem => hnc (by simpa using hmem)
      constructor
      · intro ed hed
        rcases List.mem_append.mp hed with h1 | h1
        · exact List.mem_cons_of_mem _ (h.1 ed h1)
        · simp at h1
          rw [h1]
        
          exact List.mem_cons_self _ _
      · rw [List.pairwise_append]
        refine ⟨h.2, by simp, ?_⟩
        intro a ha b hb
        simp at hb
        rw [hb]
        intro hk
        exact hnotmem (hk ▸ h.1 a ha)

/-- The unfiltered expansion preserves the deduplication invariant. -/
theorem edgeInvUnfiltered (fr : String → List (String × String)) (reg : Registry) :
    ∀ (fuel : Nat) (e : String) (st : TravState) (depth : Int),
      EdgeInv st → EdgeInv (addEntityAndNeighbors fr reg fuel e st depth) := by
  intro fuel
  induction fuel with
  | zero =>
    intro e st depth hst
    simpa [addEntityAndNeighbors] using hst
  | succ fuel ih =>
    intro e st depth hst
    rw [show fuel + 1 = Nat.succ fuel from rfl]
    unfold addEntityAndNeighbors
    split
    · exact hst
    · cases hcn : createNode reg e with
      | none => exact hst
      | some node =>
        simp only []
        split
        · refine foldlPreserve (fun (x : TravState) => EdgeInv x) _ _ _ hst ?_
          intro acc hacc rel _
          split
          · exact hacc
          · exact ih rel.1 _ (depth - 1) (edgeStepInv e rel.1 rel.2 acc hacc)
        · exact hst

/-- The filtered expansion preserves the deduplication invariant. -/
theorem edgeInvFiltered (fr : String → List (String × String)) (reg : Registry)
    (dF aF rF : Option (List String)) :
    ∀ (fuel : Nat) (e : String) (st : TravState) (depth : Int) (fc : Int),
      EdgeInv st →
      EdgeInv (addEntityAndNeighborsFiltered fr reg fuel e st depth dF aF rF fc).1 := by
  intro fuel
  induction fuel with
  | zero =>
    intro e st depth fc hst
    simpa [addEntityAndNeighborsFiltered] using hst
  | succ fuel ih =>
    intro e st depth fc hst
    rw [show fuel + 1 = Nat.succ fuel from rfl]
    unfold addEntityAndNeighborsFiltered
    split
    · exact hst
    · cases hcn : createNode reg e with
      | none => exact hst
      | some node =>
        simp only []
        by_cases hpf : passesFilters node dF aF
        · rw [if_pos hpf]
          split
          · refine foldlPreserve (fun (x : TravState × Int) => EdgeInv x.1) _ _ _ hst ?_
            intro acc hacc rel _
            split
            · exact hacc
            · split
              · exact hacc
              · cases hrn : createNode reg rel.1 with
                | none => exact hacc
                | some relatedNode =>
                  simp only []
                  split
                  · exact ih rel.1 _ (depth - 1) acc.2 (edgeStepInv e rel.1 rel.2 acc.1 hacc)
                  · exact hacc
          · exact hst
        · rw [if_neg hpf]
          exact hst

/-- The deduplication invariant holds of the empty traversal state. -/
theorem edgeInvEmpty : EdgeInv emptyTravState := by
  constructor
  · intro ed hed
    simp [emptyTravState] at hed
  · simp [emptyTravState]

/-- C7: for every query, filtered or unfiltered, the
(from_node, to_node, relationship_type) tuples of the returned edges are
pairwise distinct: the key-set deduplication admits each key at most once, and
equal tuples have equal keys. -/
theorem c7_no_duplicate_edges (reg : Registry) (fr : String → List (String × String))
    (entity_id : String) (max_depth : Int) (dF aF rF : Option (List String)) :
    (∀ r, getEntityNeighborhood reg fr entity_id max_depth = Except.ok r →
       List.Pairwise (fun (e1 e2 : GraphEdge) =>
         ¬(e1.from_node = e2.from_node ∧ e1.to_node = e2.to_node ∧
           e1.relationship_type = e2.relationship_type)) r.edges) ∧
    (∀ r, getFilteredNeighborhood reg fr entity_id max_depth dF aF rF = Except.ok r →
       List.Pairwise (fun (e1 e2 : GraphEdge) =>
         ¬(e1.from_node = e2.from_node ∧ e1.to_node = e2.to_node ∧
           e1.relationship_type = e2.relationship_type)) r.edges) := by
  have keyOfTuple : ∀ (e1 e2 : GraphEdge), e1.from_node = e2.from_node →
      e1.to_node = e2.to_node → e1.relationship_type = e2.relationship_type →
      edgeKey e1 = edgeKey e2 := by
    intro e1 e2 h1 h2 h3
    unfold edgeKey
    rw [h1, h2, h3]
  constructor
  · intro r h
    unfold getEntityNeighborhood at h
    cases hv : validateFocus reg entity_id with
    | some msg =>
      rw [hv] at h
      simp at h
    | none =>
      rw [hv] at h
      simp only [] at h
      injection h with h2
      rw [← h2]
      have hinv := edgeInvUnfiltered fr reg (max_depth.toNat + 1) entity_id emptyTravState
        max_depth edgeInvEmpty
      exact hinv.2.imp (fun hne hc => hne (keyOfTuple _ _ hc.1 hc.2.1 hc.2.2))
  · intro r h
    unfold getFilteredNeighborhood at h
    cases hv : validateFocus reg entity_id with
    | some msg =>
      rw [hv] at h
      simp at h
    | none =>
      rw [hv] at h
      simp only [] at h
      injection h with h2
      rw [← h2]
      have hinv := edgeInvFiltered fr reg dF aF rF (max_depth.toNat + 1) entity_id
        emptyTravState max_depth 0 edgeInvEmpty
      exact hinv.2.imp (fun hne hc => hne (keyOfTuple _ _ hc.1 hc.2.1 hc.2.2))

/-- Witness for C7 on the concrete unfiltered depth-2 query over sampleReg. -/
theorem c7_witness :
    getEntityNeighborhood sampleReg sampleFindRelated "light.a" 2 =
      Except.ok sampleUnfilteredResult ∧
    List.Pairwise (fun (e1 e2 : GraphEdge) =>
      ¬(e1.from_node = e2.from_node ∧ e1.to_node = e2.to_node ∧
        e1.relationship_type = e2.relationship_type)) sampleUnfilteredResult.edges :=
  ⟨by decide,
   (c7_no_duplicate_edges sampleReg sampleFindRelated "light.a" 2 none none none).1
     sampleUnfilteredResult (by decide)⟩

/-- A prefix in the Boolean sense yields an append decomposition. -/
theorem isPrefixOf_exists {p : List Char} :
    ∀ {l : List Char}, p.isPrefixOf l = true → ∃ r, l = p ++ r := by
  induction p with
  | nil => exact fun {l} _ => ⟨l, rfl⟩
  | cons c cs ih =>
    intro l h
    cases l with
    | nil => simp [List.isPrefixOf] at h
    | cons d ds =>
      simp only [List.isPrefixOf, Bool.and_eq_true, beq_iff_eq] at h
      obtain ⟨rfl, h2⟩ := h
      obtain ⟨r, hr⟩ := ih h2
      exact ⟨r, by rw [List.cons_append, ← hr]⟩

/-- Decomposition of well-formed node ids into their three shapes. -/
theorem wfNodeId_decomp {s : String} (h : wfNodeIdB s = true) :
    (∃ r : List Char,
      s.data = ['d', 'e', 'v', 'i', 'c', 'e'] ++ ':' :: r ∧ noColonChars r = true) ∨
    (∃ r : List Char, s.data = ['a', 'r', 'e', 'a'] ++ ':' :: r ∧ noColonChars r = true) ∨
    (noColonChars s.data = true ∧ s.data.contains '.' = true) := by
  unfold wfNodeIdB at h
  split at h
  · rename_i hpre
    left
    unfold chStartsWith at hpre
    obtain ⟨r, hr⟩ := isPrefixOf_exists hpre
    refine ⟨r, by rw [hr]; rfl, ?_⟩
    rw [hr] at h
    simpa using h
  · split at h
    · rename_i hpre
      right; left
      unfold chStartsWith at hpre
      obtain ⟨r, hr⟩ := isPrefixOf_exists hpre
      refine ⟨r, by rw [hr]; rfl, ?_⟩
      rw [hr] at h
      simpa using h
    · right; right
      simpa using h

/-- Worker for noColon_split. -/
theorem noColonSplitAux :
    ∀ (x1 y1 x2 y2 : List Char), noColonChars x1 = true → noColonChars x2 = true →
      x1 ++ ':' :: y1 = x2 ++ ':' :: y2 → x1 = x2 ∧ y1 = y2 := by
  intro x1
  induction x1 with
  | nil =>
    intro y1 x2 y2 _ h2 he
    cases x2 with
    | nil => simpa using he
    | cons c cs =>
      rw [List.nil_append, List.cons_append] at he
      injection he with h3 _
      simp [noColonChars, ← h3] at h2
  | cons c cs ih =>
    intro y1 x2 y2 h1 h2 he
    cases x2 with
    | nil =>
      rw [List.nil_append, List.cons_append] at he
      injection he with h3 _
      simp [noColonChars, h3] at h1
    | cons d ds =>
      rw [List.cons_append, List.cons_append] at he
      injection he with h3 h4
      have h1a : noColonChars cs = true := by
        simp only [noColonChars, List.all_cons, Bool.and_eq_true] at h1
        exact h1.2
      have h2a : noColonChars ds = true := by
        simp only [noColonChars, List.all_cons, Bool.and_eq_true] at h2
        exact h2.2
      obtain ⟨ha, hb⟩ := ih y1 ds y2 h1a h2a h4
      exact ⟨by rw [h3, ha], hb⟩

/-- Splitting at the first colon is unambiguous when the left parts have no
colon. -/
theorem noColon_split {x1 y1 x2 y2 : List Char} (he : x1 ++ ':' :: y1 = x2 ++ ':' :: y2)
    (h1 : noColonChars x1 = true) (h2 : noColonChars x2 = true) : x1 = x2 ∧ y1 = y2 :=
  noColonSplitAux x1 y1 x2 y2 h1 h2 he

/-- Strings with equal character data are equal. -/
theorem strDataInj {s t : String} (h : s.data = t.data) : s = t := by
  cases s
  cases t
  exact congrArg String.mk h

/-- String append acts as append on character data. -/
theorem strAppendData (s t : String) : (s ++ t).data = s.data ++ t.data := by
  cases s
  cases t
  rfl

/-- Re-association of a prefixed colon-joined list. -/
theorem appColon {α : Type} (p : List α) (c : α) (s r : List α) :
    (p ++ c :: s) ++ c :: r = p ++ c :: (s ++ c :: r) := by
  simp

/-- Splitting a colon-joined pair is unambiguous when the left component is a
well-formed node id. -/
theorem wfSplit {f1 f2 : String} {r1 r2 : List Char}
    (h1 : wfNodeIdB f1 = true) (h2 : wfNodeIdB f2 = true)
    (he : f1.data ++ ':' :: r1 = f2.data ++ ':' :: r2) : f1 = f2 ∧ r1 = r2 := by
  rcases wfNodeId_decomp h1 with ⟨s1, hs1, hn1⟩ | ⟨s1, hs1, hn1⟩ | ⟨hn1, hd1⟩ <;>
    rcases wfNodeId_decomp h2 with ⟨s2, hs2, hn2⟩ | ⟨s2, hs2, hn2⟩ | ⟨hn2, hd2⟩
  · rw [hs1, hs2, appColon, appColon] at he
    obtain ⟨_, he2⟩ := noColon_split he (by decide) (by decide)
    obtain ⟨he3, he4⟩ := noColon_split he2 hn1 hn2
    exact ⟨strDataInj (by rw [hs1, hs2, he3]), he4⟩
  · rw [hs1, hs2, appColon, appColon] at he
    obtain ⟨he1, _⟩ := noColon_split he (by decide) (by decide)
    exact absurd he1 (by decide)
  · rw [hs1, appColon] at he
    obtain ⟨he1, _⟩ := noColon_split he (by decide) hn2
    rw [← he1] at hd2
    exact absurd hd2 (by decide)
  · rw [hs1, hs2, appColon, appColon] at he
    obtain ⟨he1, _⟩ := noColon_split he (by decide) (by decide)
    exact absurd he1 (by decide)
  · rw [hs1, hs2, appColon, appColon] at he
    obtain ⟨_, he2⟩ := noColon_split he (by decide) (by decide)
    obtain ⟨he3, he4⟩ := noColon_split he2 hn1 hn2
    exact ⟨strDataInj (by rw [hs1, hs2, he3]), he4⟩
  · rw [hs1, appColon] at he
    obtain ⟨he1, _⟩ := noColon_split he (by decide) hn2
    rw [← he1] at hd2
    exact absurd hd2 (by decide)
  · rw [hs2, appColon] at he
    obtain ⟨he1, _⟩ := noColon_split he hn1 (by decide)
    rw [he1] at hd1
    exact absurd hd1 (by decide)
  · rw [hs2, appColon] at he
    obtain ⟨he1, _⟩ := noColon_split he hn1 (by decide)
    rw [he1] at hd1
    exact absurd hd1 (by decide)
  · obtain ⟨he1, he2⟩ := noColon_split he hn1 hn2
    exact ⟨strDataInj he1, he2⟩

/-- The character data of an edge key. -/
theorem edgeKey_data (e : GraphEdge) :
    (edgeKey e).data =
      e.from_node.data ++ ':' :: (e.to_node.data ++ ':' :: e.relationship_type.data) := by
  unfold edgeKey
  rw [strAppendData, strAppendData, strAppendData, strAppendData]
  simp [List.append_assoc]

/-- Edge keys are injective on edges with well-formed endpoints. -/
theorem edgeKeyInj {e1 e2 : GraphEdge}
    (w1 : wfNodeIdB e1.from_node = true) (w2 : wfNodeIdB e1.to_node = true)
    (w3 : wfNodeIdB e2.from_node = true) (w4 : wfNodeIdB e2.to_node = true)
    (h : edgeKey e1 = edgeKey e2) :
    e1.from_node = e2.from_node ∧ e1.to_node = e2.to_node ∧
      e1.relationship_type = e2.relationship_type := by
  have hd : (edgeKey e1).data = (edgeKey e2).data := by rw [h]
  rw [edgeKey_data, edgeKey_data] at hd
  obtain ⟨hf, hrest⟩ := wfSplit w1 w3 hd
  obtain ⟨ht, hr⟩ := wfSplit w2 w4 hrest
  exact ⟨hf, ht, strDataInj hr⟩

/-- Every canonicalizer branch produces an edge (helper shared by the traversal
lemmas). -/
theorem createSymmetricalEdge_neverNone (a b t : String) :
    ∃ e, createSymmetricalEdge a b t = some e := by
  unfold createSymmetricalEdge
  repeat' split
  all_goals exact ⟨_, rfl⟩

/-- The canonical edge connects exactly its two input node ids, in one of the
two orders. -/
theorem createSymmetricalEdge_endpoints {a b t : String} {e : GraphEdge}
    (h : createSymmetricalEdge a b t = some e) :
    (e.from_node = a ∧ e.to_node = b) ∨ (e.from_node = b ∧ e.to_node = a) := by
  unfold createSymmetricalEdge at h
  repeat' split at h
  all_goals
    injection h with h2
  all_goals
    rw [← h2]
  all_goals
    first
      | exact Or.inl ⟨rfl, rfl⟩
      | exact Or.inr ⟨rfl, rfl⟩

/-- Reaching a node within no hops. -/
theorem withinHops_refl (edges : List GraphEdge) (a : String) :
    ∀ n, withinHops edges a a n = true := by
  intro n
  cases n <;> simp [withinHops]

/-- withinHops is monotone in the recorded edges. -/
theorem withinHops_mono {edges edgesB : List GraphEdge}
    (hsub : ∀ e ∈ edges, e ∈ edgesB) :
    ∀ (n : Nat) (a b : String),
      withinHops edges a b n = true → withinHops edgesB a b n = true := by
  intro n
  induction n with
  | zero =>
    intro a b h
    simpa [withinHops] using h
  | succ n ih =>
    intro a b h
    simp only [withinHops, Bool.or_eq_true] at h ⊢
    rcases h with h | h
    · exact Or.inl h
    · right
      rw [List.any_eq_true] at h ⊢
      obtain ⟨e, he, hcond⟩ := h
      refine ⟨e, hsub e he, ?_⟩
      simp only [Bool.or_eq_true, Bool.and_eq_true] at hcond ⊢
      rcases hcond with ⟨hc1, hc2⟩ | ⟨hc1, hc2⟩
      · exact Or.inl ⟨hc1, ih _ _ hc2⟩
      · exact Or.inr ⟨hc1, ih _ _ hc2⟩

/-- One recorded edge extends reachability by one hop. -/
theorem withinHops_step {edges : List GraphEdge} {ed : GraphEdge} {a c : String}
    (hed : ed ∈ edges)
    (hc : (ed.from_node = a ∧ ed.to_node = c) ∨ (ed.from_node = c ∧ ed.to_node = a))
    {b : String} {n : Nat} (h : withinHops edges c b n = true) :
    withinHops edges a b (n + 1) = true := by
  simp only [withinHops, Bool.or_eq_true]
  right
  rw [List.any_eq_true]
  refine ⟨ed, hed, ?_⟩
  simp only [Bool.or_eq_true, Bool.and_eq_true, beq_iff_eq]
  rcases hc with ⟨hc1, hc2⟩ | ⟨hc1, hc2⟩
  · exact Or.inl ⟨hc1, by rw [hc2]; exact h⟩
  · exact Or.inr ⟨hc2, by rw [hc1]; exact h⟩

/-- The edge-recording step preserves the C6 invariant, extends the edge list,
leaves nodes and visited unchanged, and guarantees a recorded edge connecting
the two processed node ids (directly, or through the deduplicated edge with the
same key, which has the same endpoints by key injectivity). -/
theorem edgeStepC6 {entity_id rid rt : String} {st : TravState}
    (hwf : StWfC6 st) (we : wfNodeIdB entity_id = true) (wr : wfNodeIdB rid = true) :
    StWfC6 (match createSymmetricalEdge entity_id rid rt with
       | some edge =>
         if st.edgeSet.contains (edgeKey edge) then st
         else { st with edges := st.edges ++ [edge], edgeSet := edgeKey edge :: st.edgeSet }
       | none => st) ∧
    (∀ ed ∈ st.edges, ed ∈ (match createSymmetricalEdge entity_id rid rt with
       | some edge =>
         if st.edgeSet.contains (edgeKey edge) then st
         else { st with edges := st.edges ++ [edge], edgeSet := edgeKey edge :: st.edgeSet }
       | none => st).edges) ∧
    (match createSymmetricalEdge entity_id rid rt with
       | some edge =>
         if st.edgeSet.contains (edgeKey edge) then st
         else { st with edges := st.edges ++ [edge], edgeSet := edgeKey edge :: st.edgeSet }
       | none => st).nodes = st.nodes ∧
    (∃ ed ∈ (match createSymmetricalEdge entity_id rid rt with
       | some edge =>
         if st.edgeSet.contains (edgeKey edge) then st
         else { st with edges := st.edges ++ [edge], edgeSet := edgeKey edge :: st.edgeSet }
       | none => st).edges,
      (ed.from_node = entity_id ∧ ed.to_node = rid) ∨
      (ed.from_node = rid ∧ ed.to_node = entity_id)) := by
  obtain ⟨edge, hedge⟩ := createSymmetricalEdge_neverNone entity_id rid rt
  rw [hedge]
  simp only []
  have hends := createSymmetricalEdge_endpoints hedge
  have hwfe : wfNodeIdB edge.from_node = true ∧ wfNodeIdB edge.to_node = true := by
    rcases hends with ⟨hf, ht⟩ | ⟨hf, ht⟩ <;> rw [hf, ht] <;> exact ⟨by assumption, by assumption⟩
  split
  · rename_i hcont
    have hmem : edgeKey edge ∈ st.edgeSet := by simpa using hcont
    obtain ⟨ed, hedmem, hedkey⟩ := hwf.2 (edgeKey edge) hmem
    have hwfed := hwf.1 ed hedmem
    obtain ⟨hf, ht, _⟩ := edgeKeyInj hwfed.1 hwfed.2 hwfe.1 hwfe.2 hedkey
    refine ⟨hwf, fun ed2 h2 => h2, rfl, ⟨ed, hedmem, ?_⟩⟩
    rcases hends with ⟨ha, hb⟩ | ⟨ha, hb⟩
    · exact Or.inl ⟨by rw [hf, ha], by rw [ht, hb]⟩
    · exact Or.inr ⟨by rw [hf, ha], by rw [ht, hb]⟩
  · refine ⟨⟨?_, ?_⟩, ?_, rfl, ⟨edge, by simp, hends⟩⟩
    · intro ed hed
      rcases List.mem_append.mp hed with h1 | h1
      · exact hwf.1 ed h1
      · simp at h1
        rw [h1]
        exact hwfe
    · intro k hk
      rcases List.mem_cons.mp hk with h1 | h1
      · exact ⟨edge, by simp, h1.symm⟩
      · obtain ⟨ed, hedmem, hedkey⟩ := hwf.2 k h1
        exact ⟨ed, List.mem_append.mpr (Or.inl hedmem), hedkey⟩
    · intro ed hed
      exact List.mem_append.mpr (Or.inl hed)

/-- The GraphNode built by _create_node carries the requested id. -/
theorem createNode_id {reg : Registry} {i : String} {n : GraphNode}
    (h : createNode reg i = some n) : n.id = i := by
  unfold createNode at h
  simp only [] at h
  repeat' split at h
  all_goals cases h
  all_goals rfl

/-- Every recorded node of the unfiltered expansion is keyed by its own id. -/
theorem nodesIdUnfiltered (fr : String → List (String × String)) (reg : Registry) :
    ∀ (fuel : Nat) (e : String) (st : TravState) (depth : Int),
      (∀ p ∈ st.nodes, p.2.id = p.1) →
      ∀ p ∈ (addEntityAndNeighbors fr reg fuel e st depth).nodes, p.2.id = p.1 := by
  intro fuel
  induction fuel with
  | zero =>
    intro e st depth hst
    simpa [addEntityAndNeighbors] using hst
  | succ fuel ih =>
    intro e st depth hst
    rw [show fuel + 1 = Nat.succ fuel from rfl]
    unfold addEntityAndNeighbors
    split
    · exact hst
    · cases hcn : createNode reg e with
      | none => exact hst
      | some node =>
        simp only []
        have hst2 : ∀ p ∈ setNode st.nodes e node, p.2.id = p.1 := by
          intro p hp
          rcases mem_setNode hp with h | h
          · exact hst p h
          · rw [h]
            exact createNode_id hcn
        split
        · refine foldlPreserve (fun (x : TravState) => ∀ p ∈ x.nodes, p.2.id = p.1)
            _ _ _ hst2 ?_
          intro acc hacc rel _
          split
          · exact hacc
          · refine ih rel.1 _ (depth - 1) ?_
            intro p hp
            cases hmk : createSymmetricalEdge e rel.1 rel.2 with
            | none =>
              rw [hmk] at hp
              exact hacc p hp
            | some edge =>
              rw [hmk] at hp
              simp only [] at hp
              by_cases hct : acc.edgeSet.contains (edgeKey edge)
              · rw [if_pos hct] at hp
                exact hacc p hp
              · rw [if_neg hct] at hp
                exact hacc p hp
        · exact hst2

/-- A focus that passes the validation chain resolves to a node: the chain and
_create_node consult the same registries in the same branch order. -/
theorem validateFocus_createNode {reg : Registry} {e : String}
    (h : validateFocus reg e = none) : ∃ n, createNode reg e = some n := by
  unfold validateFocus at h
  unfold createNode
  simp only [] at h ⊢
  by_cases h1 : chStartsWith e "device:"
  · rw [if_pos h1] at h ⊢
    cases hdev : deviceGet reg (chReplace e "device:" "") with
    | none =>
      rw [hdev] at h
      simp at h
    | some dev => exact ⟨_, rfl⟩
  · rw [if_neg h1] at h ⊢
    by_cases h2 : chStartsWith e "area:"
    · rw [if_pos h2] at h ⊢
      cases harea : areaGet reg (chReplace e "area:" "") with
      | none =>
        rw [harea] at h
        simp at h
      | some area => exact ⟨_, rfl⟩
    · rw [if_neg h2] at h ⊢
      by_cases h3 : chStartsWith e "zone."
      · rw [if_pos h3] at h ⊢
        cases hzone : statesGet reg e with
        | none =>
          rw [hzone] at h
          simp at h
        | some zoneState => exact ⟨_, rfl⟩
      · rw [if_neg h3] at h ⊢
        have hcont : (reg.states.map (fun p => p.1)).contains e = true := by
          by_cases hc : (reg.states.map (fun p => p.1)).contains e
          · exact hc
          · rw [if_neg hc] at h
            simp at h
        have hmem : e ∈ reg.states.map (fun p => p.1) := by simpa using hcont
        obtain ⟨p, hpmem, hpe⟩ := List.mem_map.mp hmem
        have hfind : (reg.states.find? (fun q => q.1 == e)).isSome := by
          rw [List.find?_isSome]
          exact ⟨p, hpmem, by simp [hpe]⟩
        cases hst : statesGet reg e with
        | none =>
          unfold statesGet lookupKey at hst
          rw [Option.map_eq_none'] at hst
          rw [hst] at hfind
          simp at hfind
        | some state => exact ⟨_, rfl⟩

/-- Main depth-bound invariant of the unfiltered expansion: traversal from a
well-formed node id, with well-formed discovered neighbor ids, preserves the
edge invariant, only extends the edges, and every newly recorded node lies
within depth hops of the expansion root over the final edge list. -/
theorem c6Main (fr : String → List (String × String)) (reg : Registry)
    (hfr : ∀ (a : String), ∀ p ∈ fr a, wfNodeIdB p.1 = true) :
    ∀ (fuel : Nat) (e : String) (st : TravState) (depth : Int),
      wfNodeIdB e = true → StWfC6 st →
      StWfC6 (addEntityAndNeighbors fr reg fuel e st depth) ∧
      (∀ ed ∈ st.edges, ed ∈ (addEntityAndNeighbors fr reg fuel e st depth).edges) ∧
      (∀ p ∈ (addEntityAndNeighbors fr reg fuel e st depth).nodes,
        p ∈ st.nodes ∨
          withinHops (addEntityAndNeighbors fr reg fuel e st depth).edges e p.1
            depth.toNat = true) := by
  intro fuel
  induction fuel with
  | zero =>
    intro e st depth hwe hwf
    exact ⟨hwf, fun ed h => h, fun p hp => Or.inl hp⟩
  | succ fuel ih =>
    intro e st depth hwe hwf
    rw [show fuel + 1 = Nat.succ fuel from rfl]
    unfold addEntityAndNeighbors
    split
    · exact ⟨hwf, fun ed h => h, fun p hp => Or.inl hp⟩
    · cases hcn : createNode reg e with
      | none => exact ⟨hwf, fun ed h => h, fun p hp => Or.inl hp⟩
      | some node =>
        simp only []
        by_cases hd : depth > 0
        · rw [if_pos hd]
          have hgoal := foldlPreserve
            (fun (x : TravState) =>
              StWfC6 x ∧ (∀ ed ∈ st.edges, ed ∈ x.edges) ∧
              (∀ p ∈ x.nodes,
                p ∈ setNode st.nodes e node ∨
                  withinHops x.edges e p.1 ((depth - 1).toNat + 1) = true))
            (fun acc rel =>
              if acc.visited.contains rel.1 then acc
              else
                addEntityAndNeighbors fr reg fuel rel.1
                  (match createSymmetricalEdge e rel.1 rel.2 with
                   | some edge =>
                     if acc.edgeSet.contains (edgeKey edge) then acc
                     else { acc with edges := acc.edges ++ [edge],
                                     edgeSet := edgeKey edge :: acc.edgeSet }
                   | none => acc) (depth - 1))
            (fr e)
            { st with visited := e :: st.visited, nodes := setNode st.nodes e node }
            ⟨hwf, fun ed h => h, fun p hp => Or.inl hp⟩
            ?_
          · refine ⟨hgoal.1, hgoal.2.1, ?_⟩
            intro p hp
            rcases hgoal.2.2 p hp with h1 | h1
            · rcases mem_setNode h1 with h2 | h2
              · exact Or.inl h2
              · right
                rw [h2]
                exact withinHops_refl _ _ _
            · right
              have harith : (depth - 1).toNat + 1 = depth.toNat := by omega
              rw [← harith]
              exact h1
          · intro x hx rel hrel
            simp only []
            split
            · exact hx
            · obtain ⟨hwx1, hmono1, hnodes1, hconn⟩ :=
                @edgeStepC6 e rel.1 rel.2 x hx.1 hwe (hfr e rel hrel)
              obtain ⟨ihwf, ihmono, ihnodes⟩ :=
                ih rel.1 (match createSymmetricalEdge e rel.1 rel.2 with
                   | some edge =>
                     if x.edgeSet.contains (edgeKey edge) then x
                     else { x with edges := x.edges ++ [edge],
                                   edgeSet := edgeKey edge :: x.edgeSet }
                   | none => x) (depth - 1) (hfr e rel hrel) hwx1
              refine ⟨ihwf, ?_, ?_⟩
              · intro ed hed
                exact ihmono ed (hmono1 ed (hx.2.1 ed hed))
              · intro p hp
                rcases ihnodes p hp with hin | hwithin
                · rw [hnodes1] at hin
                  rcases hx.2.2 p hin with h1 | h1
                  · exact Or.inl h1
                  · right
                    exact withinHops_mono (fun ed hed => ihmono ed (hmono1 ed hed)) _ _ _ h1
                · right
                  obtain ⟨ed, hedmem, hedconn⟩ := hconn
                  exact withinHops_step (ihmono ed hedmem) hedconn hwithin
        · rw [if_neg hd]
          refine ⟨hwf, fun ed h => h, ?_⟩
          intro p hp
          rcases mem_setNode hp with h1 | h1
          · exact Or.inl h1
          · right
            rw [h1]
            exact withinHops_refl _ _ _

/-- C6: for a resolvable focus node (with well-formed node ids, as Home
Assistant produces: entity ids contain a dot and no colon, device:/area: ids
have colon-free suffixes) and any max_depth d, every node of the returned graph
is at most d hops from the focus along the recorded edges, and for d = 0 the
result contains exactly the focus node and no edges. -/
theorem c6_depth_bound (reg : Registry) (fr : String → List (String × String))
    (entity_id : String) (max_depth : Int) (r : NeighborhoodResult)
    (hfr : ∀ (a : String), ∀ p ∈ fr a, wfNodeIdB p.1 = true)
    (he : wfNodeIdB entity_id = true)
    (h : getEntityNeighborhood reg fr entity_id max_depth = Except.ok r) :
    (∀ n ∈ r.nodes, withinHops r.edges entity_id n.id max_depth.toNat = true) ∧
    (max_depth = 0 →
      r.nodes.map (fun (n : GraphNode) => n.id) = [entity_id] ∧ r.edges = []) := by
  unfold getEntityNeighborhood at h
  cases hv : validateFocus reg entity_id with
  | some msg =>
    rw [hv] at h
    simp at h
  | none =>
    rw [hv] at h
    simp only [] at h
    injection h with h2
    have hempty : StWfC6 emptyTravState :=
      ⟨fun ed hed => by simp [emptyTravState] at hed,
       fun k hk => by simp [emptyTravState] at hk⟩
    constructor
    · intro n hn
      rw [← h2] at hn ⊢
      obtain ⟨p, hp, rfl⟩ := List.mem_map.mp hn
      have hmain := c6Main fr reg hfr (max_depth.toNat + 1) entity_id emptyTravState
        max_depth he hempty
      have hid := nodesIdUnfiltered fr reg (max_depth.toNat + 1) entity_id emptyTravState
        max_depth (by simp [emptyTravState]) p hp
      rcases hmain.2.2 p hp with hin | hwithin
      · simp [emptyTravState] at hin
      · rw [hid]
        exact hwithin
    · intro h0
      subst h0
      obtain ⟨node, hnode⟩ := validateFocus_createNode hv
      rw [← h2]
      have hstep : addEntityAndNeighbors fr reg ((0 : Int).toNat + 1) entity_id
          emptyTravState 0 =
          { nodes := setNode [] entity_id node, edges := [], visited := [entity_id],
            edgeSet := [] } := by
        rw [show (0 : Int).toNat + 1 = Nat.succ 0 from rfl]
        unfold addEntityAndNeighbors
        simp [emptyTravState, hnode]
      rw [hstep]
      constructor
      · simp [setNode, createNode_id hnode]
      · rfl

/-- Witness for C6 on the concrete depth-2 query over sampleReg. -/
theorem c6_witness :
    getEntityNeighborhood sampleReg sampleFindRelated "light.a" 2 =
      Except.ok sampleUnfilteredResult ∧
    (∀ n ∈ sampleUnfilteredResult.nodes,
      withinHops sampleUnfilteredResult.edges "light.a" n.id (2 : Int).toNat = true) :=
  ⟨by decide,
   (c6_depth_bound sampleReg sampleFindRelated "light.a" 2 sampleUnfilteredResult
     (by
       intro a p hp
       unfold sampleFindRelated at hp
       split at hp
       · simp at hp
         rcases hp with rfl | rfl <;> decide
       · split at hp
         · simp at hp
           rcases hp with rfl | rfl | rfl <;> decide
         · simp at hp)
     (by decide) (by decide)).1⟩
